import Mathlib

/-!
Verification of the sealed-PDF generation and evidence-hashing pipeline of
the Verum Omnis repository (src/utils/sealPdf.ts and the application file
concatenated after it, which holds `stringToHash` and
`performSealingProcess`).

Modelling conventions:

* All page coordinates and measured text widths are embedded as integers in
  hundredths of a PDF point, so every constant of the source is exact:
  the A4 sheet 595.28 x 841.89 becomes 59528 x 84189, the bottom margin 80
  becomes 8000, the line height 14 becomes 1400, and so on.  Font sizes are
  kept unscaled (8, 9, 10, 11, 12, 14, 18, 24) since they act only as tags
  on draw operations.
* The pdf-lib font metric `font.widthOfTextAtSize(s, 10)` is external to the
  repository; layout functions are therefore parameterised by an arbitrary
  width measure `w : String -> Int` (in the same hundredth units).
* JavaScript string helpers used by the source (`split`, `trim`,
  `replace(/.../g, .)`) are embedded as structurally recursive functions on
  `List Char`, so that the kernel can evaluate them.
* `crypto.subtle.digest("SHA-512", .)` is a Web platform primitive, not
  repository code; it is modelled by a complete FIPS 180-4 SHA-512
  implementation over byte lists whose round constants are derived from the
  fractional parts of the roots of the first primes, and which is validated
  below against the published digest of the empty message.
* Fallible steps of the builder (font embedding, QR data-URL generation,
  PNG embedding, serialization) are modelled in the `Except` monad.
-/

/-! ## JavaScript string primitives -/

/-- Characters treated as whitespace by `String.prototype.trim`; the inputs
of this code base only ever carry these four. -/
def jsWhitespace (c : Char) : Bool :=
  c = ' ' || c = '\t' || c = '\n' || c = '\r'

/-- Model of `s.trim()`: strip whitespace from both ends. -/
def jsTrim (s : String) : String :=
  String.mk (((s.data.dropWhile jsWhitespace).reverse.dropWhile jsWhitespace).reverse)

/-- Split a character list at every occurrence of `sep`, keeping empty
pieces, exactly like `String.prototype.split` with a one-character
separator. -/
def splitCharList (sep : Char) : List Char → List (List Char)
  | [] => [[]]
  | c :: cs =>
    match splitCharList sep cs with
    | [] => [[c]]
    | h :: t => if c = sep then [] :: h :: t else (c :: h) :: t

/-- Model of `s.split(sep)` for a one-character separator. -/
def jsSplit (sep : Char) (s : String) : List String :=
  (splitCharList sep s.data).map String.mk

/-- Fuel-indexed worker for global literal replacement; the fuel is the
length of the text being scanned, which bounds the recursion. -/
def replaceAux (pat rep : List Char) : ℕ → List Char → List Char
  | 0, s => s
  | _ + 1, [] => []
  | n + 1, c :: cs =>
    if pat ≠ [] ∧ pat.isPrefixOf (c :: cs) then
      rep ++ replaceAux pat rep n ((c :: cs).drop pat.length)
    else
      c :: replaceAux pat rep n cs

/-- Model of `s.replace(/pat/g, rep)` for a literal pattern: every
left-to-right non-overlapping occurrence of `pat` is replaced by `rep`. -/
def jsReplaceAll (s pat rep : String) : String :=
  String.mk (replaceAux pat.data rep.data s.data.length s.data)

/-! ## Data model (src/utils/sealPdf.ts, SealInput and helpers) -/

/-- One entry of `SealInput.evidence`: `{name: string; sha512: string}`. -/
structure EvidenceItem where
  name : String
  sha512 : String
deriving DecidableEq

/-- The `SealInput` record of src/utils/sealPdf.ts.  `messagesHtml` and
`logoDataUrl` are optional; JavaScript truthiness makes the empty string
behave like an absent `messagesHtml`. -/
structure SealInput where
  title : String
  messagesHtml : Option String
  evidence : List EvidenceItem
  utcTimestamp : String
  localTimestamp : String
  appVersion : String
  logoDataUrl : Option String
deriving DecidableEq

/-- A `page.drawText` call: the string, its position (hundredth units) and
the font size. -/
structure TextOp where
  s : String
  x : ℤ
  y : ℤ
  size : ℕ
deriving DecidableEq

/-- A `page.drawImage` call: the embedded data URL, position and extent. -/
structure ImageOp where
  url : String
  x : ℤ
  y : ℤ
  w : ℤ
  h : ℤ
deriving DecidableEq

/-- One rendered page: its text draw operations in order, and its images. -/
structure Page where
  texts : List TextOp
  images : List ImageOp
deriving DecidableEq

/-- The QR payload object built at the top of `makeSealedPdf`. -/
structure QRPayload where
  sha512 : List String
  filenames : List String
  utcTimestamp : String
  appVersion : String
  pageCount : ℕ
deriving DecidableEq

/-- The finished document: its page list, the payload whose serialization
was encoded into the raster image embedded on the metadata page, and the
payload object as it stands after the late `qrPayload.pageCount`
assignment of line 149 (which happens after the image was embedded). -/
structure SealedDoc where
  pages : List Page
  embeddedQrPayload : QRPayload
  correctedQrPayload : QRPayload
deriving DecidableEq

/-! ## Layout constants (hundredths of a PDF point) -/

/-- A4 width, 595.28 pt (pdf-lib `PageSizes.A4`). -/
def pageW : ℤ := 59528

/-- A4 height, 841.89 pt (pdf-lib `PageSizes.A4`). -/
def pageH : ℤ := 84189

/-! ## Page furniture (`drawPageFurniture`, src/utils/sealPdf.ts lines 15-31) -/

/-- Footer text: the static product label, plus, when a truncated primary
hash is present, ` | Evidence Hash: <hash>...`. -/
def furnitureText (th : Option String) : String :=
  match th with
  | none => "™ Patent Pending Verum Omnis"
  | some h => "™ Patent Pending Verum Omnis" ++ " | Evidence Hash: " ++ h ++ "..."

/-- The single `drawText` of `drawPageFurniture`: footer at (50, 40), size 8. -/
def drawPageFurniture (th : Option String) : TextOp :=
  { s := furnitureText th, x := 5000, y := 4000, size := 8 }

/-- `input.evidence[0]?.sha512 || null`: the digest of the first evidence
entry, with the empty string demoted to `none` by JavaScript truthiness. -/
def primaryHashOf (evidence : List EvidenceItem) : Option String :=
  match evidence with
  | [] => none
  | e :: _ => if e.sha512 = "" then none else some e.sha512

/-- `primaryHash.substring(0, 16)`: the first 16 characters. -/
def truncHash (evidence : List EvidenceItem) : Option String :=
  (primaryHashOf evidence).map (fun h => String.mk (h.data.take 16))

/-! ## Summary page (src/utils/sealPdf.ts lines 51-72) -/

/-- The evidence loop of the summary page, started at `y = height - 185`:
an entry is skipped when the cursor has crossed `y < 100` (scaled: 10000),
otherwise its name is drawn at `y` (size 10) and its digest 12 below
(size 9), and the cursor advances by 26 in total. -/
def summaryEvidenceOps : List EvidenceItem → ℤ → List TextOp
  | [], _ => []
  | e :: rest, y =>
    if y < 10000 then
      summaryEvidenceOps rest y
    else
      { s := "• " ++ e.name, x := 6000, y := y, size := 10 } ::
      { s := "  SHA-512: " ++ e.sha512, x := 6000, y := y - 1200, size := 9 } ::
      summaryEvidenceOps rest (y - 2600)

/-- Rendering of an evidence list with no bottom cutoff, used as the
specification-side comparator for the summary page: every entry yields its
name line and its full-digest line, once, at successive positions. -/
def evidenceEntriesOps : List EvidenceItem → ℤ → List TextOp
  | [], _ => []
  | e :: rest, y =>
    { s := "• " ++ e.name, x := 6000, y := y, size := 10 } ::
    { s := "  SHA-512: " ++ e.sha512, x := 6000, y := y - 1200, size := 9 } ::
    evidenceEntriesOps rest (y - 2600)

/-- Page 1 of `makeSealedPdf`: furniture, main heading (size 24), title
(size 18, defaulted when empty), evidence heading (size 12) and the
evidence list from `y = height - 185`. -/
def summaryPage (input : SealInput) (th : Option String) : Page :=
  { texts :=
      drawPageFurniture th ::
      { s := "Verum Omnis V5", x := 5000, y := pageH - 8000, size := 24 } ::
      { s := if input.title = "" then "Sealed Forensic Report" else input.title,
        x := 5000, y := pageH - 12000, size := 18 } ::
      { s := "Evidence & Hashes:", x := 5000, y := pageH - 16500, size := 12 } ::
      summaryEvidenceOps input.evidence (pageH - 18500),
    images := [] }

/-! ## Body pages (src/utils/sealPdf.ts lines 74-133) -/

/-- State of the body-page renderer: completed pages, the draw operations
of the page under construction, and the vertical cursor `currentY`. -/
structure BodySt where
  done : List Page
  cur : List TextOp
  y : ℤ
deriving DecidableEq

/-- Drawing one wrapped line (lines 109-131 of the source): when the cursor
has fallen below the bottom margin 80 (scaled: 8000) a new page is opened
with furniture re-rendered and the cursor reset to `height - topMargin`;
the line is then drawn at the cursor (size 10, x = 50) and the cursor
advances by the line height 14. -/
def drawLine (th : Option String) (line : String) (st : BodySt) : BodySt :=
  if st.y < 8000 then
    { done := st.done ++ [{ texts := st.cur, images := [] }],
      cur := [drawPageFurniture th,
              { s := line, x := 5000, y := pageH - 8000, size := 10 }],
      y := pageH - 8000 - 1400 }
  else
    { done := st.done,
      cur := st.cur ++ [{ s := line, x := 5000, y := st.y, size := 10 }],
      y := st.y - 1400 }

/-- The greedy word loop (lines 105-121): accumulate words into `line`
while the measured width of the tentative line stays within `maxWidth`;
on overflow flush the accumulated line and restart from the overflowing
word.  Returns the final state and the unflushed accumulator. -/
def wrapWords (w : String → ℤ) (th : Option String) (maxW : ℤ) :
    List String → String → BodySt → BodySt × String
  | [], line, st => (st, line)
  | word :: rest, line, st =>
    let testLine := if line = "" then word else line ++ " " ++ word
    if w testLine > maxW then
      wrapWords w th maxW rest word (drawLine th line st)
    else
      wrapWords w th maxW rest testLine st

/-- A blank input line (lines 92-100): advance the cursor one line height
without drawing; when it falls below the bottom margin, open a new page
with furniture and reset the cursor. -/
def blankAdvance (th : Option String) (st : BodySt) : BodySt :=
  if st.y - 1400 < 8000 then
    { done := st.done ++ [{ texts := st.cur, images := [] }],
      cur := [drawPageFurniture th],
      y := pageH - 8000 }
  else
    { done := st.done, cur := st.cur, y := st.y - 1400 }

/-- One paragraph (lines 91-132): blank paragraphs only advance the cursor;
otherwise the words are wrapped greedily and a nonempty final accumulator
is flushed. -/
def renderParagraph (w : String → ℤ) (th : Option String) (maxW : ℤ)
    (para : String) (st : BodySt) : BodySt :=
  if jsTrim para = "" then
    blankAdvance th st
  else
    let r := wrapWords w th maxW (jsSplit ' ' para) "" st
    if r.2 = "" then r.1 else drawLine th r.2 r.1

/-- The body section (lines 74-133): a fresh page with furniture and the
`Conversation Excerpt:` heading, the cursor at `height - 100`, then every
`\n`-separated paragraph of the body text; returns the completed pages. -/
def bodyPages (w : String → ℤ) (th : Option String) (text : String) : List Page :=
  let maxW := pageW - 2 * 5000
  let init : BodySt :=
    { done := [],
      cur := [drawPageFurniture th,
              { s := "Conversation Excerpt:", x := 5000, y := pageH - 8000, size := 12 }],
      y := pageH - 10000 }
  let fin := (jsSplit '\n' text).foldl (fun st p => renderParagraph w th maxW p st) init
  fin.done ++ [{ texts := fin.cur, images := [] }]

/-! ## QR payload and metadata page (src/utils/sealPdf.ts lines 41-49 and 136-159) -/

/-- The payload object as built at lines 42-48: `pageCount` is
`pdf.getPageCount()` taken at line 36, before any page was added, hence 0. -/
def initialQrPayload (input : SealInput) : QRPayload :=
  { sha512 := input.evidence.map (·.sha512),
    filenames := input.evidence.map (·.name),
    utcTimestamp := input.utcTimestamp,
    appVersion := input.appVersion,
    pageCount := 0 }

/-- Escape of one character inside a JSON string: quote and backslash; the
inputs of this pipeline (hex digests, file names, ISO timestamps, version)
carry no control characters. -/
def jsonEscapeChar (c : Char) : String :=
  if c = '"' then "\\\"" else if c = '\\' then "\\\\" else String.mk [c]

/-- JSON serialization of a string. -/
def jsonString (s : String) : String :=
  "\"" ++ String.join (s.data.map jsonEscapeChar) ++ "\""

/-- JSON serialization of an array of strings. -/
def jsonStringArray (l : List String) : String :=
  "[" ++ String.intercalate "," (l.map jsonString) ++ "]"

/-- Model of `JSON.stringify(qrPayload)` with the insertion-ordered keys of
lines 42-48. -/
def payloadJson (p : QRPayload) : String :=
  "\x7b\"sha512\":" ++ jsonStringArray p.sha512 ++
  ",\"filenames\":" ++ jsonStringArray p.filenames ++
  ",\"utcTimestamp\":" ++ jsonString p.utcTimestamp ++
  ",\"appVersion\":" ++ jsonString p.appVersion ++
  ",\"pageCount\":" ++ toString p.pageCount ++ "\x7d"

/-- The five metadata lines (lines 151-159), drawn from `height - 110`
downward with step 14 at size 11. -/
def metaTextOps (input : SealInput) (finalPageCount : ℕ) : List TextOp :=
  [{ s := "Local Timestamp: " ++ input.localTimestamp, x := 5000, y := pageH - 11000, size := 11 },
   { s := "UTC Timestamp: " ++ input.utcTimestamp, x := 5000, y := pageH - 12400, size := 11 },
   { s := "Version: " ++ input.appVersion, x := 5000, y := pageH - 13800, size := 11 },
   { s := "Files: " ++ toString input.evidence.length, x := 5000, y := pageH - 15200, size := 11 },
   { s := "Page Count: " ++ toString finalPageCount, x := 5000, y := pageH - 16600, size := 11 }]

/-- The final sealing page (lines 136-159): furniture, heading, the QR
raster image at the fixed offset from the bottom-right corner (120 wide),
and the metadata lines. -/
def finalPage (th : Option String) (qrUrl : String) (input : SealInput)
    (finalPageCount : ℕ) : Page :=
  { texts := [drawPageFurniture th,
              { s := "Sealing Metadata", x := 5000, y := pageH - 8000, size := 14 }] ++
             metaTextOps input finalPageCount,
    images := [{ url := qrUrl, x := pageW - 5000 - 12000, y := 5000, w := 12000, h := 12000 }] }

/-- The body section is rendered only when `input.messagesHtml` is truthy:
present and nonempty. -/
def bodySection (w : String → ℤ) (th : Option String) : Option String → List Page
  | none => []
  | some s => if s = "" then [] else bodyPages w th s

/-- Pure page construction of `makeSealedPdf`: summary page, optional body
pages, final sealing page.  `qrUrl` is the data URL that line 49 produced
from `initialQrPayload` — the raster image embedded at line 143 is derived
from that stale payload, while line 149 mutates only the JavaScript object
(`correctedQrPayload`), after the image was embedded. -/
def buildSealedDoc (w : String → ℤ) (qrUrl : String) (input : SealInput) : SealedDoc :=
  let th := truncHash input.evidence
  let body := bodySection w th input.messagesHtml
  { pages := summaryPage input th :: body ++
             [finalPage th qrUrl input (body.length + 2)],
    embeddedQrPayload := initialQrPayload input,
    correctedQrPayload := { initialQrPayload input with pageCount := body.length + 2 } }

/-! ## SHA-512 (FIPS 180-4), modelling `crypto.subtle.digest("SHA-512", data)`

Modelled from the spec: the Hasher contract of the specification section 4.1
says the digest function uses SHA-512, producing a 64-byte digest; the
browser primitive `crypto.subtle.digest` is not part of the repository, so
it is embedded here as a complete FIPS 180-4 SHA-512 over byte lists.  The
words are naturals reduced mod 2^64 where overflow matters.  The initial
hash values and round constants are derived, as FIPS 180-4 defines them,
from the first 64 bits of the fractional parts of the square roots of the
first 8 primes and of the cube roots of the first 80 primes; theorem
`stringToHash_spec` validates the construction against the published
SHA-512 digest of the empty message. -/

/-- Trial-division primality for numbers below 529 = 23^2: a composite in
that range has a divisor between 2 and 22. -/
def smallPrime (n : ℕ) : Bool :=
  decide (2 ≤ n) && ((List.range 23).drop 2).all (fun d => d == n || n % d != 0)

/-- The first `k` primes (all below 500; the 80th prime is 409). -/
def firstPrimes (k : ℕ) : List ℕ :=
  ((List.range 500).filter smallPrime).take k

/-- Integer square root by descending binary search over 70 bits, enough
for the 137-bit arguments used below; structurally recursive so that the
kernel can evaluate it. -/
def isqrt70 (n : ℕ) : ℕ :=
  (List.range 70).foldl (fun acc i =>
    let c := acc + 2 ^ (69 - i)
    if c * c ≤ n then c else acc) 0

/-- Integer cube root by descending binary search over 70 bits, enough for
the 201-bit arguments used below. -/
def icbrt70 (n : ℕ) : ℕ :=
  (List.range 70).foldl (fun acc i =>
    let c := acc + 2 ^ (69 - i)
    if c * c * c ≤ n then c else acc) 0

/-- First 64 bits of the fractional part of the square root of `p`. -/
def sqrtFrac64 (p : ℕ) : ℕ := isqrt70 (p * 2 ^ 128) % 2 ^ 64

/-- First 64 bits of the fractional part of the cube root of `p`. -/
def cbrtFrac64 (p : ℕ) : ℕ := icbrt70 (p * 2 ^ 192) % 2 ^ 64

/-- The 80 SHA-512 round constants. -/
def K512 : List ℕ := (firstPrimes 80).map cbrtFrac64

/-- Reduction to a 64-bit word. -/
def mask64 (n : ℕ) : ℕ := n % 2 ^ 64

/-- Right rotation of a 64-bit word. -/
def rotr64 (x n : ℕ) : ℕ := mask64 ((x >>> n) ||| (x <<< (64 - n)))

/-- Bitwise complement of a 64-bit word. -/
def not64 (x : ℕ) : ℕ := x ^^^ (2 ^ 64 - 1)

/-- SHA-512 choice function. -/
def ch64 (x y z : ℕ) : ℕ := (x &&& y) ^^^ (not64 x &&& z)

/-- SHA-512 majority function. -/
def maj64 (x y z : ℕ) : ℕ := (x &&& y) ^^^ (x &&& z) ^^^ (y &&& z)

/-- SHA-512 big sigma 0. -/
def bsig0 (x : ℕ) : ℕ := rotr64 x 28 ^^^ rotr64 x 34 ^^^ rotr64 x 39

/-- SHA-512 big sigma 1. -/
def bsig1 (x : ℕ) : ℕ := rotr64 x 14 ^^^ rotr64 x 18 ^^^ rotr64 x 41

/-- SHA-512 small sigma 0. -/
def ssig0 (x : ℕ) : ℕ := rotr64 x 1 ^^^ rotr64 x 8 ^^^ (x >>> 7)

/-- SHA-512 small sigma 1. -/
def ssig1 (x : ℕ) : ℕ := rotr64 x 19 ^^^ rotr64 x 61 ^^^ (x >>> 6)

/-- Big-endian serialization of `n` into `k` bytes. -/
def toBytesBE (k : ℕ) (n : ℕ) : List ℕ :=
  (List.range k).map (fun i => (n >>> (8 * (k - 1 - i))) % 256)

/-- Big-endian word from a byte list. -/
def bytesToWord (bs : List ℕ) : ℕ := bs.foldl (fun a b => a * 256 + b) 0

/-- FIPS 180-4 section 5.1.2 padding: append `0x80`, zero bytes up to 112
mod 128, then the 128-bit big-endian message bit length. -/
def padMessage (msg : List ℕ) : List ℕ :=
  let L := msg.length
  msg ++ [128] ++ List.replicate ((128 - ((L + 17) % 128)) % 128) 0 ++
    toBytesBE 16 (8 * L)

/-- The sixteen 64-bit words of one 128-byte block. -/
def blockWords (block : List ℕ) : List ℕ :=
  (List.range 16).map (fun i => bytesToWord ((block.drop (8 * i)).take 8))

/-- One step of the message-schedule extension (word `t` from words
`t-2`, `t-7`, `t-15`, `t-16`). -/
def scheduleStep (ws : List ℕ) : ℕ :=
  mask64 (ssig1 (ws.getD (ws.length - 2) 0) + ws.getD (ws.length - 7) 0 +
          ssig0 (ws.getD (ws.length - 15) 0) + ws.getD (ws.length - 16) 0)

/-- The 80-word message schedule of one block. -/
def messageSchedule (init : List ℕ) : List ℕ :=
  (List.range 64).foldl (fun ws _ => ws ++ [scheduleStep ws]) init

/-- The eight working variables of the compression function. -/
structure Sha512St where
  a : ℕ
  b : ℕ
  c : ℕ
  d : ℕ
  e : ℕ
  f : ℕ
  g : ℕ
  h : ℕ

/-- One of the 80 compression rounds, consuming a round constant paired
with a schedule word. -/
def compressRound (st : Sha512St) (kw : ℕ × ℕ) : Sha512St :=
  let t1 := mask64 (st.h + bsig1 st.e + ch64 st.e st.f st.g + kw.1 + kw.2)
  let t2 := mask64 (bsig0 st.a + maj64 st.a st.b st.c)
  { a := mask64 (t1 + t2), b := st.a, c := st.b, d := st.c,
    e := mask64 (st.d + t1), f := st.e, g := st.f, h := st.g }

/-- Compression of one 128-byte block into the running state. -/
def compressBlock (st : Sha512St) (block : List ℕ) : Sha512St :=
  let ws := messageSchedule (blockWords block)
  let r := (K512.zip ws).foldl compressRound st
  { a := mask64 (st.a + r.a), b := mask64 (st.b + r.b),
    c := mask64 (st.c + r.c), d := mask64 (st.d + r.d),
    e := mask64 (st.e + r.e), f := mask64 (st.f + r.f),
    g := mask64 (st.g + r.g), h := mask64 (st.h + r.h) }

/-- The SHA-512 initial hash value: fractional square-root bits of the
first eight primes. -/
def sha512Init : Sha512St :=
  { a := sqrtFrac64 2, b := sqrtFrac64 3, c := sqrtFrac64 5, d := sqrtFrac64 7,
    e := sqrtFrac64 11, f := sqrtFrac64 13, g := sqrtFrac64 17, h := sqrtFrac64 19 }

/-- SHA-512 of a byte list: pad, compress each 128-byte block, serialize
the eight state words big-endian into 64 digest bytes. -/
def sha512 (msg : List ℕ) : List ℕ :=
  let padded := padMessage msg
  let blocks := (List.range (padded.length / 128)).map
    (fun i => (padded.drop (128 * i)).take 128)
  let st := blocks.foldl compressBlock sha512Init
  [st.a, st.b, st.c, st.d, st.e, st.f, st.g, st.h].flatMap (toBytesBE 8)

/-! ## The Hasher (`stringToHash`, application file lines 218-222) -/

/-- The sixteen lowercase hexadecimal digits. -/
def hexDigits : List Char := "0123456789abcdef".data

/-- One hexadecimal digit character. -/
def hexDigit (n : ℕ) : Char := hexDigits.getD n 'x'

/-- Rendering of one byte as two lowercase hexadecimal characters, the
model of `b.toString(16).padStart(2, "0")` for a byte value. -/
def byteToHex (b : ℕ) : List Char := [hexDigit (b / 16 % 16), hexDigit (b % 16)]

/-- The Hasher: SHA-512 of the bytes, rendered byte-by-byte as two-digit
lowercase hexadecimal and joined. -/
def stringToHash (data : List ℕ) : String :=
  String.mk ((sha512 data).flatMap byteToHex)

/-! ## Fallible construction pipeline (`makeSealedPdf`, `performSealingProcess`) -/

/-- The awaited, fallible collaborators of `makeSealedPdf`, in the order
the source awaits them: `pdf.embedFont` (whose result carries the width
metric `widthOfTextAtSize(., 10)`), `QRCode.toDataURL`, `pdf.embedPng`,
and `pdf.save`.  A rejected promise is an `Except.error`. -/
structure PdfPrims (ε : Type) where
  embedFont : Except ε (String → ℤ)
  qrToDataURL : String → Except ε String
  embedPng : String → Except ε Unit
  save : SealedDoc → Except ε (List ℕ)

/-- The whole of `makeSealedPdf` (src/utils/sealPdf.ts lines 33-162):
embed the font, produce the QR data URL from the serialized initial
payload (line 49, before any page exists), embed the PNG, lay the pages
out (pure, `buildSealedDoc`), and serialize.  Any rejection propagates:
there is no try/catch in the function, so the first failing step aborts
the operation with no byte sequence produced. -/
def makeSealedPdf (P : PdfPrims ε) (input : SealInput) : Except ε (List ℕ) := do
  let w ← P.embedFont
  let qrUrl ← P.qrToDataURL (payloadJson (initialQrPayload input))
  let _ ← P.embedPng qrUrl
  P.save (buildSealedDoc w qrUrl input)

/-- The self-referential hash placeholder of the report text. -/
def sealPlaceholder : String := "[Placeholder for SHA-512 hash of this report]"

/-- Result of the sealing slice: the document bytes, the recomputed digest,
and the report text with the placeholder substituted. -/
structure SealResult where
  pdfBytes : List ℕ
  hash : String
  updatedContent : String
deriving DecidableEq

/-- The deterministic core of `performSealingProcess` (application file
lines 543-601): build the document, recompute its SHA-512 via the Hasher
(`stringToHash`), and substitute the digest for the self-referential
placeholder in the report content.  The Firebase cloud-anchor branch and
the other two placeholder substitutions are outside the sealed-document
core specified here and are not modelled. -/
def performSealingProcess (P : PdfPrims ε) (content : String)
    (input : SealInput) : Except ε SealResult := do
  let pdfBytes ← makeSealedPdf P input
  let pdfHash := stringToHash pdfBytes
  pure { pdfBytes := pdfBytes, hash := pdfHash,
         updatedContent := jsReplaceAll content sealPlaceholder pdfHash }

/-! ## Concrete instances for scenario evaluation -/

/-- Modelled from the spec: a fixed-pitch width measure standing in for the
external pdf-lib metric `font.widthOfTextAtSize(., 10)` (6 pt per
character, in hundredth units).  The layout theorems are proved for every
width measure; this one instantiates them on concrete scenarios. -/
def wMono (s : String) : ℤ := 600 * s.length

/-- A 128-character hexadecimal digest for the end-to-end scenario. -/
def hex128 : String := String.mk (List.replicate 64 'a' ++ List.replicate 64 'b')

/-- The end-to-end scenario input of specification section 8: one evidence
entry, no body text. -/
def scenarioInput : SealInput :=
  { title := "Sealed Forensic Report",
    messagesHtml := none,
    evidence := [{ name := "a.txt", sha512 := hex128 }],
    utcTimestamp := "2024-01-01T00:00:00.000Z",
    localTimestamp := "1/1/2024, 12:00:00 AM UTC",
    appVersion := "5.1.0",
    logoDataUrl := none }

/-- A body text of 98 one-word paragraphs: one line each under `wMono`,
which forces exactly two page breaks (48 lines fit on the first body page,
49 on each later one). -/
def text98 : String := String.intercalate "\n" (List.replicate 98 "a")

/-- A body text of 147 one-word paragraphs: exactly three page breaks. -/
def text147 : String := String.intercalate "\n" (List.replicate 147 "a")

/-! ## Helper lemmas about the body-state draw operations -/

/-- All text draw operations recorded in a body state: those of the
completed pages followed by those of the page under construction. -/
def stOps (st : BodySt) : List TextOp := st.done.flatMap Page.texts ++ st.cur

theorem stOps_drawLine (th : Option String) (line : String) (st : BodySt) :
    stOps (drawLine th line st) =
      if st.y < 8000 then
        stOps st ++ [drawPageFurniture th,
                     { s := line, x := 5000, y := pageH - 8000, size := 10 }]
      else
        stOps st ++ [{ s := line, x := 5000, y := st.y, size := 10 }] := by
  unfold drawLine stOps
  split <;> simp

theorem stOps_blankAdvance (th : Option String) (st : BodySt) :
    stOps (blankAdvance th st) =
      if st.y - 1400 < 8000 then stOps st ++ [drawPageFurniture th]
      else stOps st := by
  unfold blankAdvance stOps
  split <;> simp

theorem bodyPages_texts_sub (w : String → ℤ) (th : Option String) (text : String)
    (p : Page) (hp : p ∈ bodyPages w th text) (op : TextOp) (hop : op ∈ p.texts) :
    op ∈ stOps ((jsSplit '\n' text).foldl
      (fun st q => renderParagraph w th (pageW - 2 * 5000) q st)
      { done := [],
        cur := [drawPageFurniture th,
                { s := "Conversation Excerpt:", x := 5000, y := pageH - 8000, size := 12 }],
        y := pageH - 10000 }) := by
  unfold bodyPages at hp
  rcases List.mem_append.mp hp with hdone | hlast
  · exact List.mem_append.mpr (Or.inl (List.mem_flatMap.mpr ⟨p, hdone, hop⟩))
  · rcases List.mem_singleton.mp hlast with rfl
    exact List.mem_append.mpr (Or.inr hop)

/-! ## Invariant: body lines are never drawn below the bottom margin -/

/-- Every size-10 draw operation (a wrapped body line) recorded so far sits
at or above the bottom margin 80 (scaled: 8000). -/
def linesAboveMargin (st : BodySt) : Prop :=
  ∀ op ∈ stOps st, op.size = 10 → (8000 : ℤ) ≤ op.y

theorem drawLine_linesAboveMargin (th : Option String) (line : String)
    (st : BodySt) (h : linesAboveMargin st) :
    linesAboveMargin (drawLine th line st) := by
  intro op hop hsize
  rw [stOps_drawLine] at hop
  by_cases hy : st.y < 8000
  · rw [if_pos hy] at hop
    rcases List.mem_append.mp hop with hold | hnew
    · exact h op hold hsize
    · rcases List.mem_cons.mp hnew with h1 | h1
      · rw [h1] at hsize; simp [drawPageFurniture] at hsize
      · rcases List.mem_singleton.mp h1 with rfl
        show (8000 : ℤ) ≤ pageH - 8000
        decide
  · rw [if_neg hy] at hop
    rcases List.mem_append.mp hop with hold | hnew
    · exact h op hold hsize
    · rcases List.mem_singleton.mp hnew with rfl
      exact le_of_not_lt hy

theorem blankAdvance_linesAboveMargin (th : Option String) (st : BodySt)
    (h : linesAboveMargin st) : linesAboveMargin (blankAdvance th st) := by
  intro op hop hsize
  rw [stOps_blankAdvance] at hop
  by_cases hy : st.y - 1400 < 8000
  · rw [if_pos hy] at hop
    rcases List.mem_append.mp hop with hold | hnew
    · exact h op hold hsize
    · rcases List.mem_singleton.mp hnew with rfl
      simp [drawPageFurniture] at hsize
  · rw [if_neg hy] at hop
    exact h op hop hsize

theorem wrapWords_linesAboveMargin (w : String → ℤ) (th : Option String)
    (maxW : ℤ) (words : List String) :
    ∀ (line : String) (st : BodySt), linesAboveMargin st →
      linesAboveMargin (wrapWords w th maxW words line st).1 := by
  induction words with
  | nil => intro line st h; exact h
  | cons word rest ih =>
    intro line st h
    rw [wrapWords]
    by_cases hw : w (if line = "" then word else line ++ " " ++ word) > maxW
    · rw [if_pos hw]
      exact ih word _ (drawLine_linesAboveMargin th line st h)
    · rw [if_neg hw]
      exact ih _ st h

theorem renderParagraph_linesAboveMargin (w : String → ℤ) (th : Option String)
    (maxW : ℤ) (para : String) (st : BodySt) (h : linesAboveMargin st) :
    linesAboveMargin (renderParagraph w th maxW para st) := by
  unfold renderParagraph
  by_cases htrim : jsTrim para = ""
  · rw [if_pos htrim]
    exact blankAdvance_linesAboveMargin th st h
  · rw [if_neg htrim]
    have h1 := wrapWords_linesAboveMargin w th maxW (jsSplit ' ' para) "" st h
    by_cases hflush : (wrapWords w th maxW (jsSplit ' ' para) "" st).2 = ""
    · rw [if_pos hflush]; exact h1
    · rw [if_neg hflush]
      exact drawLine_linesAboveMargin th _ _ h1

theorem foldl_linesAboveMargin (w : String → ℤ) (th : Option String)
    (maxW : ℤ) (ps : List String) :
    ∀ st : BodySt, linesAboveMargin st →
      linesAboveMargin (ps.foldl (fun st q => renderParagraph w th maxW q st) st) := by
  induction ps with
  | nil => intro st h; exact h
  | cons p rest ih =>
    intro st h
    exact ih _ (renderParagraph_linesAboveMargin w th maxW p st h)

theorem init_linesAboveMargin (th : Option String) :
    linesAboveMargin
      { done := [],
        cur := [drawPageFurniture th,
                { s := "Conversation Excerpt:", x := 5000, y := pageH - 8000, size := 12 }],
        y := pageH - 10000 } := by
  intro op hop hsize
  simp [stOps] at hop
  rcases hop with h1 | h1 <;> rw [h1] at hsize <;> simp [drawPageFurniture] at hsize

/-- C10: during body-page rendering, every wrapped body line (the size-10
draw operations, including the flush of a partially filled last line) is
drawn at a vertical coordinate at or above the fixed bottom margin of 80
points (scaled: 8000); no body text is ever emitted below the bottom
margin, for any width measure, footer hash and body text. -/
theorem body_lines_above_bottom_margin (w : String → ℤ) (th : Option String)
    (text : String) :
    ∀ p ∈ bodyPages w th text, ∀ op ∈ p.texts, op.size = 10 → (8000 : ℤ) ≤ op.y := by
  intro p hp op hop hsize
  have hsub := bodyPages_texts_sub w th text p hp op hop
  exact foldl_linesAboveMargin w th (pageW - 2 * 5000) (jsSplit '\n' text) _
    (init_linesAboveMargin th) op hsub hsize

/-- Witness: the single body line of the one-paragraph text `hi` is drawn
at 741.89 points (scaled: 74189), above the 80-point bottom margin. -/
theorem body_lines_above_bottom_margin_witness : (8000 : ℤ) ≤ 74189 :=
  body_lines_above_bottom_margin wMono none "hi"
    { texts := [drawPageFurniture none,
                { s := "Conversation Excerpt:", x := 5000, y := pageH - 8000, size := 12 },
                { s := "hi", x := 5000, y := 74189, size := 10 }],
      images := [] }
    (by decide)
    { s := "hi", x := 5000, y := 74189, size := 10 }
    (by decide) rfl

/-! ## Invariant: wrapped lines never exceed the content width -/

/-- Every size-10 draw operation recorded so far measures within `maxW`
under the width measure `w`. -/
def linesFit (w : String → ℤ) (maxW : ℤ) (st : BodySt) : Prop :=
  ∀ op ∈ stOps st, op.size = 10 → w op.s ≤ maxW

theorem drawLine_linesFit (w : String → ℤ) (maxW : ℤ) (th : Option String)
    (line : String) (st : BodySt) (hline : w line ≤ maxW)
    (h : linesFit w maxW st) : linesFit w maxW (drawLine th line st) := by
  intro op hop hsize
  rw [stOps_drawLine] at hop
  by_cases hy : st.y < 8000
  · rw [if_pos hy] at hop
    rcases List.mem_append.mp hop with hold | hnew
    · exact h op hold hsize
    · rcases List.mem_cons.mp hnew with h1 | h1
      · rw [h1] at hsize; simp [drawPageFurniture] at hsize
      · rcases List.mem_singleton.mp h1 with rfl
        exact hline
  · rw [if_neg hy] at hop
    rcases List.mem_append.mp hop with hold | hnew
    · exact h op hold hsize
    · rcases List.mem_singleton.mp hnew with rfl
      exact hline

theorem blankAdvance_linesFit (w : String → ℤ) (maxW : ℤ) (th : Option String)
    (st : BodySt) (h : linesFit w maxW st) : linesFit w maxW (blankAdvance th st) := by
  intro op hop hsize
  rw [stOps_blankAdvance] at hop
  by_cases hy : st.y - 1400 < 8000
  · rw [if_pos hy] at hop
    rcases List.mem_append.mp hop with hold | hnew
    · exact h op hold hsize
    · rcases List.mem_singleton.mp hnew with rfl
      simp [drawPageFurniture] at hsize
  · rw [if_neg hy] at hop
    exact h op hop hsize

theorem wrapWords_linesFit (w : String → ℤ) (th : Option String) (maxW : ℤ)
    (words : List String) :
    ∀ (line : String) (st : BodySt),
      (∀ wd ∈ words, w wd < maxW) →
      linesFit w maxW st → (line = "" ∨ w line ≤ maxW) →
      linesFit w maxW (wrapWords w th maxW words line st).1 ∧
        ((wrapWords w th maxW words line st).2 = "" ∨
          w (wrapWords w th maxW words line st).2 ≤ maxW) := by
  induction words with
  | nil => intro line st _ hst hline; exact ⟨hst, hline⟩
  | cons word rest ih =>
    intro line st hw hst hline
    have hword : w word < maxW := hw word (List.mem_cons_self word rest)
    have hrest : ∀ wd ∈ rest, w wd < maxW :=
      fun wd hwd => hw wd (List.mem_cons_of_mem word hwd)
    rw [wrapWords]
    by_cases hover : w (if line = "" then word else line ++ " " ++ word) > maxW
    · rw [if_pos hover]
      have hlineFit : w line ≤ maxW := by
        rcases hline with h1 | h1
        · exfalso
          rw [h1, if_pos rfl] at hover
          exact absurd hword (not_lt.mpr (le_of_lt hover))
        · exact h1
      exact ih word _ hrest (drawLine_linesFit w maxW th line st hlineFit hst)
        (Or.inr (le_of_lt hword))
    · rw [if_neg hover]
      exact ih _ st hrest hst (Or.inr (not_lt.mp hover))

theorem renderParagraph_linesFit (w : String → ℤ) (th : Option String)
    (maxW : ℤ) (para : String) (st : BodySt)
    (hw : jsTrim para ≠ "" → ∀ wd ∈ jsSplit ' ' para, w wd < maxW)
    (hst : linesFit w maxW st) : linesFit w maxW (renderParagraph w th maxW para st) := by
  unfold renderParagraph
  by_cases htrim : jsTrim para = ""
  · rw [if_pos htrim]
    exact blankAdvance_linesFit w maxW th st hst
  · rw [if_neg htrim]
    have hspec := wrapWords_linesFit w th maxW (jsSplit ' ' para) "" st
      (hw htrim) hst (Or.inl rfl)
    by_cases hflush : (wrapWords w th maxW (jsSplit ' ' para) "" st).2 = ""
    · rw [if_pos hflush]; exact hspec.1
    · rw [if_neg hflush]
      rcases hspec.2 with h1 | h1
      · exact absurd h1 hflush
      · exact drawLine_linesFit w maxW th _ _ h1 hspec.1

theorem foldl_linesFit (w : String → ℤ) (th : Option String) (maxW : ℤ)
    (ps : List String) :
    ∀ st : BodySt,
      (∀ para ∈ ps, jsTrim para ≠ "" → ∀ wd ∈ jsSplit ' ' para, w wd < maxW) →
      linesFit w maxW st →
      linesFit w maxW (ps.foldl (fun st q => renderParagraph w th maxW q st) st) := by
  induction ps with
  | nil => intro st _ hst; exact hst
  | cons p rest ih =>
    intro st hps hst
    exact ih _ (fun q hq => hps q (List.mem_cons_of_mem p hq))
      (renderParagraph_linesFit w th maxW p st (hps p (List.mem_cons_self p rest)) hst)

theorem init_linesFit (w : String → ℤ) (maxW : ℤ) (th : Option String) :
    linesFit w maxW
      { done := [],
        cur := [drawPageFurniture th,
                { s := "Conversation Excerpt:", x := 5000, y := pageH - 8000, size := 12 }],
        y := pageH - 10000 } := by
  intro op hop hsize
  simp [stOps] at hop
  rcases hop with h1 | h1 <;> rw [h1] at hsize <;> simp [drawPageFurniture] at hsize

theorem wideWord_own_line (w : String → ℤ) (th : Option String) (maxW : ℤ)
    (word : String) (st : BodySt) (htrim : jsTrim word ≠ "")
    (hsplit : jsSplit ' ' word = [word]) (hover : w word > maxW) :
    ∃ y : ℤ, { s := word, x := 5000, y := y, size := 10 } ∈
      stOps (renderParagraph w th maxW word st) := by
  unfold renderParagraph
  rw [if_neg htrim, hsplit]
  have hww : wrapWords w th maxW [word] "" st = (drawLine th "" st, word) := by
    simp [wrapWords, hover]
  rw [hww]
  have hwordne : word ≠ "" := by
    intro h; rw [h] at htrim; exact htrim rfl
  rw [if_neg hwordne]
  by_cases hy : (drawLine th "" st).y < 8000
  · refine ⟨pageH - 8000, ?_⟩
    rw [stOps_drawLine, if_pos hy]
    simp
  · refine ⟨(drawLine th "" st).y, ?_⟩
    rw [stOps_drawLine, if_neg hy]
    simp

/-- C4: for every width measure and body text in which each individual word
of each non-blank paragraph measures narrower than the content width
(page width minus both 50-point side margins, scaled: 49528), the greedy
word-wrap never emits a line whose measured width exceeds the content
width; and a single word measuring wider than the content width is flushed
as one whole size-10 line of its own, without being split. -/
theorem wrap_lines_fit_content_width (w : String → ℤ) (th : Option String)
    (text : String)
    (hwords : ∀ para ∈ jsSplit '\n' text, jsTrim para ≠ "" →
      ∀ wd ∈ jsSplit ' ' para, w wd < pageW - 2 * 5000) :
    (∀ p ∈ bodyPages w th text, ∀ op ∈ p.texts, op.size = 10 →
      w op.s ≤ pageW - 2 * 5000) ∧
    (∀ (word : String) (st : BodySt), jsTrim word ≠ "" →
      jsSplit ' ' word = [word] → w word > pageW - 2 * 5000 →
      ∃ y : ℤ, { s := word, x := 5000, y := y, size := 10 } ∈
        stOps (renderParagraph w th (pageW - 2 * 5000) word st)) := by
  constructor
  · intro p hp op hop hsize
    have hsub := bodyPages_texts_sub w th text p hp op hop
    exact foldl_linesFit w th (pageW - 2 * 5000) (jsSplit '\n' text) _
      hwords (init_linesFit w (pageW - 2 * 5000) th) op hsub hsize
  · intro word st htrim hsplit hover
    exact wideWord_own_line w th (pageW - 2 * 5000) word st htrim hsplit hover

/-- A word of 83 characters, wider than the content width under `wMono`. -/
def longWord83 : String := String.mk (List.replicate 83 'a')

/-- Witness for C4: the wrapped line `hello` fits the content width, and
the over-wide 83-character word is flushed whole as its own line. -/
theorem wrap_lines_fit_content_width_witness :
    wMono "hello" ≤ pageW - 2 * 5000 ∧
    (∃ y : ℤ, { s := longWord83, x := 5000, y := y, size := 10 } ∈
      stOps (renderParagraph wMono none (pageW - 2 * 5000) longWord83
        { done := [], cur := [], y := 74189 })) := by
  have h := wrap_lines_fit_content_width wMono none "hello" (by decide)
  refine ⟨?_, h.2 longWord83 { done := [], cur := [], y := 74189 }
    (by decide) (by decide) (by decide)⟩
  exact h.1
    { texts := [drawPageFurniture none,
                { s := "Conversation Excerpt:", x := 5000, y := pageH - 8000, size := 12 },
                { s := "hello", x := 5000, y := 74189, size := 10 }],
      images := [] }
    (by decide)
    { s := "hello", x := 5000, y := 74189, size := 10 }
    (by decide) rfl

/-! ## Invariant: the footer furniture appears on every page -/

/-- Every completed page, and the page under construction, carries the
footer furniture draw operation. -/
def furnitureEverywhere (th : Option String) (st : BodySt) : Prop :=
  (∀ p ∈ st.done, drawPageFurniture th ∈ p.texts) ∧ drawPageFurniture th ∈ st.cur

theorem drawLine_furnitureEverywhere (th : Option String) (line : String)
    (st : BodySt) (h : furnitureEverywhere th st) :
    furnitureEverywhere th (drawLine th line st) := by
  unfold drawLine
  by_cases hy : st.y < 8000
  · rw [if_pos hy]
    refine ⟨?_, by simp⟩
    intro p hp
    rcases List.mem_append.mp hp with h1 | h1
    · exact h.1 p h1
    · rcases List.mem_singleton.mp h1 with rfl
      exact h.2
  · rw [if_neg hy]
    exact ⟨h.1, List.mem_append.mpr (Or.inl h.2)⟩

theorem blankAdvance_furnitureEverywhere (th : Option String) (st : BodySt)
    (h : furnitureEverywhere th st) :
    furnitureEverywhere th (blankAdvance th st) := by
  unfold blankAdvance
  by_cases hy : st.y - 1400 < 8000
  · rw [if_pos hy]
    refine ⟨?_, by simp⟩
    intro p hp
    rcases List.mem_append.mp hp with h1 | h1
    · exact h.1 p h1
    · rcases List.mem_singleton.mp h1 with rfl
      exact h.2
  · rw [if_neg hy]
    exact h

theorem wrapWords_furnitureEverywhere (w : String → ℤ) (th : Option String)
    (maxW : ℤ) (words : List String) :
    ∀ (line : String) (st : BodySt), furnitureEverywhere th st →
      furnitureEverywhere th (wrapWords w th maxW words line st).1 := by
  induction words with
  | nil => intro line st h; exact h
  | cons word rest ih =>
    intro line st h
    rw [wrapWords]
    by_cases hover : w (if line = "" then word else line ++ " " ++ word) > maxW
    · rw [if_pos hover]
      exact ih word _ (drawLine_furnitureEverywhere th line st h)
    · rw [if_neg hover]
      exact ih _ st h

theorem renderParagraph_furnitureEverywhere (w : String → ℤ) (th : Option String)
    (maxW : ℤ) (para : String) (st : BodySt) (h : furnitureEverywhere th st) :
    furnitureEverywhere th (renderParagraph w th maxW para st) := by
  unfold renderParagraph
  by_cases htrim : jsTrim para = ""
  · rw [if_pos htrim]
    exact blankAdvance_furnitureEverywhere th st h
  · rw [if_neg htrim]
    have h1 := wrapWords_furnitureEverywhere w th maxW (jsSplit ' ' para) "" st h
    by_cases hflush : (wrapWords w th maxW (jsSplit ' ' para) "" st).2 = ""
    · rw [if_pos hflush]; exact h1
    · rw [if_neg hflush]
      exact drawLine_furnitureEverywhere th _ _ h1

theorem foldl_furnitureEverywhere (w : String → ℤ) (th : Option String)
    (maxW : ℤ) (ps : List String) :
    ∀ st : BodySt, furnitureEverywhere th st →
      furnitureEverywhere th
        (ps.foldl (fun st q => renderParagraph w th maxW q st) st) := by
  induction ps with
  | nil => intro st h; exact h
  | cons p rest ih =>
    intro st h
    exact ih _ (renderParagraph_furnitureEverywhere w th maxW p st h)

theorem bodyPages_furniture (w : String → ℤ) (th : Option String) (text : String) :
    ∀ p ∈ bodyPages w th text, drawPageFurniture th ∈ p.texts := by
  intro p hp
  unfold bodyPages at hp
  have hfin := foldl_furnitureEverywhere w th (pageW - 2 * 5000) (jsSplit '\n' text)
    { done := [],
      cur := [drawPageFurniture th,
              { s := "Conversation Excerpt:", x := 5000, y := pageH - 8000, size := 12 }],
      y := pageH - 10000 }
    ⟨by simp, by simp⟩
  rcases List.mem_append.mp hp with h1 | h1
  · exact hfin.1 p h1
  · rcases List.mem_singleton.mp h1 with rfl
    exact hfin.2

theorem bodySection_furniture (w : String → ℤ) (th : Option String)
    (mh : Option String) :
    ∀ p ∈ bodySection w th mh, drawPageFurniture th ∈ p.texts := by
  intro p hp
  cases mh with
  | none => simp [bodySection] at hp
  | some s =>
    by_cases hs : s = ""
    · simp [bodySection, hs] at hp
    · rw [bodySection, if_neg hs] at hp
      exact bodyPages_furniture w th s p hp

/-- C9: every page of the rendered document carries the fixed-position
footer furniture; with no evidence the footer is only the static product
label, and with a first evidence entry carrying a 128-character digest the
footer carries exactly the first 16 characters of that digest followed by
an ellipsis — and the footer can never contain the full digest. -/
theorem furniture_on_every_page (w : String → ℤ) (qrUrl : String)
    (input : SealInput) :
    (∀ p ∈ (buildSealedDoc w qrUrl input).pages,
      drawPageFurniture (truncHash input.evidence) ∈ p.texts) ∧
    (input.evidence = [] →
      furnitureText (truncHash input.evidence) = "™ Patent Pending Verum Omnis") ∧
    (∀ (e : EvidenceItem) (rest : List EvidenceItem),
      input.evidence = e :: rest → e.sha512.length = 128 →
      furnitureText (truncHash input.evidence) =
        "™ Patent Pending Verum Omnis" ++ " | Evidence Hash: " ++
          String.mk (e.sha512.data.take 16) ++ "..." ∧
      (String.mk (e.sha512.data.take 16)).length = 16 ∧
      ¬ ∃ pre post : String,
        furnitureText (truncHash input.evidence) = pre ++ e.sha512 ++ post) := by
  refine ⟨?_, ?_, ?_⟩
  · intro p hp
    rw [buildSealedDoc] at hp
    simp only [List.mem_cons, List.mem_append] at hp
    rcases hp with (h1 | h1) | h1 | h1
    · rw [h1]; simp [summaryPage]
    · exact bodySection_furniture w (truncHash input.evidence) input.messagesHtml p h1
    · rw [h1]; simp [finalPage]
    · simp at h1
  · intro h
    rw [h]
    rfl
  · intro e rest heq hlen
    have hne : e.sha512 ≠ "" := by
      intro h0
      rw [h0] at hlen
      exact absurd hlen (by decide)
    have hth : truncHash input.evidence = some (String.mk (e.sha512.data.take 16)) := by
      rw [heq]
      simp [truncHash, primaryHashOf, hne]
    have hdata : e.sha512.data.length = 128 := hlen
    have htklen : (String.mk (e.sha512.data.take 16)).length = 16 := by
      show (e.sha512.data.take 16).length = 16
      rw [List.length_take, hdata]
      decide
    refine ⟨by rw [hth]; rfl, htklen, ?_⟩
    rintro ⟨pre, post, hsub⟩
    have hlenEq := congrArg String.length hsub
    rw [hth] at hlenEq
    have hfurn : (furnitureText (some (String.mk (e.sha512.data.take 16)))).length = 65 := by
      show ("™ Patent Pending Verum Omnis" ++ " | Evidence Hash: " ++
        String.mk (e.sha512.data.take 16) ++ "...").length = 65
      rw [String.length_append, String.length_append, String.length_append, htklen]
      decide
    rw [hfurn, String.length_append, String.length_append, hlen] at hlenEq
    omega

set_option maxRecDepth 100000 in
/-- Witness for C9: on the end-to-end scenario input the summary page
carries the footer furniture, and the footer text is the product label
with the first 16 digest characters and an ellipsis. -/
theorem furniture_on_every_page_witness :
    drawPageFurniture (truncHash scenarioInput.evidence) ∈
      (summaryPage scenarioInput (truncHash scenarioInput.evidence)).texts ∧
    furnitureText (truncHash scenarioInput.evidence) =
      "™ Patent Pending Verum Omnis" ++ " | Evidence Hash: " ++
        String.mk (hex128.data.take 16) ++ "..." := by
  have h := furniture_on_every_page wMono "" scenarioInput
  have h3 := h.2.2 { name := "a.txt", sha512 := hex128 } [] rfl (by decide)
  exact ⟨h.1 (summaryPage scenarioInput (truncHash scenarioInput.evidence)) (by decide),
    h3.1⟩

/-! ## Summary-page evidence truncation -/

theorem summaryEvidenceOps_below (es : List EvidenceItem) (y : ℤ)
    (h : y < 10000) : summaryEvidenceOps es y = [] := by
  induction es with
  | nil => rfl
  | cons e rest ih =>
    rw [summaryEvidenceOps, if_pos h]
    exact ih

theorem summaryEvidenceOps_take :
    ∀ (n : ℕ) (es : List EvidenceItem) (y : ℤ),
      (∀ k : ℕ, k < n → (10000 : ℤ) ≤ y - 2600 * k) →
      y - 2600 * n < 10000 →
      summaryEvidenceOps es y = evidenceEntriesOps (es.take n) y := by
  intro n
  induction n with
  | zero =>
    intro es y _ h2
    simp only [Nat.cast_zero, mul_zero, sub_zero] at h2
    rw [summaryEvidenceOps_below es y h2]
    rfl
  | succ n ih =>
    intro es y h1 h2
    cases es with
    | nil => rfl
    | cons e rest =>
      have hy : (10000 : ℤ) ≤ y := by
        have := h1 0 (Nat.succ_pos n)
        simpa using this
      rw [summaryEvidenceOps, if_neg (not_lt.mpr hy), List.take_succ_cons,
        evidenceEntriesOps]
      congr 1
      congr 1
      refine ih rest (y - 2600) ?_ ?_
      · intro k hk
        have := h1 (k + 1) (Nat.succ_lt_succ hk)
        push_cast at this ⊢
        linarith
      · push_cast at h2 ⊢
        linarith

/-- C3: the summary page consists of its four fixed headings followed by
the evidence list rendered from `y = height - 185`; that list shows the
name and the full digest of exactly the first `min(length, 22)` entries
(each entry contributing exactly its two draw operations, once), the
remaining entries being silently dropped with no error — and 22 is maximal
for the fixed vertical budget: entry 21 still starts at or above the
100-point threshold while entry 22 would start below it. -/
theorem summaryPage_first22_entries (input : SealInput) (th : Option String) :
    (summaryPage input th).texts.drop 4 =
      summaryEvidenceOps input.evidence (pageH - 18500) ∧
    summaryEvidenceOps input.evidence (pageH - 18500) =
      evidenceEntriesOps (input.evidence.take 22) (pageH - 18500) ∧
    (evidenceEntriesOps (input.evidence.take 22) (pageH - 18500)).length =
      2 * min input.evidence.length 22 ∧
    (10000 : ℤ) ≤ pageH - 18500 - 2600 * 21 ∧
    pageH - 18500 - 2600 * 22 < 10000 := by
  have hlen : ∀ (l : List EvidenceItem) (y : ℤ),
      (evidenceEntriesOps l y).length = 2 * l.length := by
    intro l
    induction l with
    | nil => intro y; rfl
    | cons e rest ih =>
      intro y
      rw [evidenceEntriesOps]
      simp only [List.length_cons, ih]
      omega
  refine ⟨rfl, ?_, ?_, by decide, by decide⟩
  · refine summaryEvidenceOps_take 22 input.evidence (pageH - 18500) ?_ (by decide)
    intro k hk
    interval_cases k <;> decide
  · rw [hlen]
    simp [List.length_take, Nat.min_comm]

/-! ## Page count and the embedded QR payload -/

/-- C1 (refuted; code bug): the payload serialized into the embedded raster
image is the one captured at line 49 with
`pageCount = pdf.getPageCount() = 0` — taken before any page was added —
while the returned document always has at least 2 pages; the late
assignment of line 149 corrects only the JavaScript object, after the PNG
was already generated and embedded, so the corrected count never reaches
the raster image.  The embedded page count therefore never equals the
actual page count, for any input. -/
theorem qrPayload_pageCount_stale (w : String → ℤ) (qrUrl : String)
    (input : SealInput) :
    (buildSealedDoc w qrUrl input).embeddedQrPayload.pageCount = 0 ∧
    2 ≤ (buildSealedDoc w qrUrl input).pages.length ∧
    (buildSealedDoc w qrUrl input).correctedQrPayload.pageCount =
      (buildSealedDoc w qrUrl input).pages.length ∧
    (buildSealedDoc w qrUrl input).embeddedQrPayload.pageCount ≠
      (buildSealedDoc w qrUrl input).pages.length ∧
    (buildSealedDoc wMono "" scenarioInput).embeddedQrPayload.pageCount = 0 ∧
    (buildSealedDoc wMono "" scenarioInput).pages.length = 2 := by
  refine ⟨rfl, ?_, ?_, ?_, rfl, ?_⟩ <;>
    simp [buildSealedDoc, initialQrPayload, bodySection, scenarioInput]

/-- C6: with no body text (absent, or the empty string, which JavaScript
truthiness treats as absent) the returned document is exactly the summary
page followed by the final metadata page. -/
theorem no_body_two_pages (w : String → ℤ) (qrUrl : String) (input : SealInput)
    (h : input.messagesHtml = none ∨ input.messagesHtml = some "") :
    (buildSealedDoc w qrUrl input).pages =
      [summaryPage input (truncHash input.evidence),
       finalPage (truncHash input.evidence) qrUrl input 2] := by
  rcases h with h | h <;> simp [buildSealedDoc, bodySection, h]

/-- Witness for C6: the end-to-end scenario input (no body text) yields
exactly the summary page and the metadata page. -/
theorem no_body_two_pages_witness :
    (buildSealedDoc wMono "" scenarioInput).pages =
      [summaryPage scenarioInput (truncHash scenarioInput.evidence),
       finalPage (truncHash scenarioInput.evidence) "" scenarioInput 2] :=
  no_body_two_pages wMono "" scenarioInput (Or.inl rfl)

set_option maxRecDepth 100000 in
/-- C5: a page break during body rendering occurs exactly when the
vertical cursor has fallen below the fixed bottom margin 80 (scaled: 8000)
at the moment a line is to be drawn — in that case, and only then, the
page under construction is completed, a new page is opened with the footer
furniture re-rendered, and the cursor is reset to the fixed top margin —
and a body text forcing exactly two (respectively three) page breaks
yields three (respectively four) body pages, hence a five- (respectively
six-) page document. -/
theorem pageBreak_characterization :
    (∀ (th : Option String) (line : String) (st : BodySt), st.y < 8000 →
      drawLine th line st =
        { done := st.done ++ [{ texts := st.cur, images := [] }],
          cur := [drawPageFurniture th,
                  { s := line, x := 5000, y := pageH - 8000, size := 10 }],
          y := pageH - 8000 - 1400 }) ∧
    (∀ (th : Option String) (line : String) (st : BodySt), 8000 ≤ st.y →
      drawLine th line st =
        { done := st.done,
          cur := st.cur ++ [{ s := line, x := 5000, y := st.y, size := 10 }],
          y := st.y - 1400 }) ∧
    (bodyPages wMono none text98).length = 3 ∧
    (bodyPages wMono none text147).length = 4 ∧
    (buildSealedDoc wMono "" { scenarioInput with messagesHtml := some text98 }).pages.length = 5 ∧
    (buildSealedDoc wMono "" { scenarioInput with messagesHtml := some text147 }).pages.length = 6 := by
  refine ⟨?_, ?_, by decide, by decide, by decide, by decide⟩
  · intro th line st h
    rw [drawLine, if_pos h]
  · intro th line st h
    rw [drawLine, if_neg (not_lt.mpr h)]

/-- Witness for C5: with the cursor at 50 (scaled: 5000), below the margin,
drawing a line opens a new page with furniture and a reset cursor; with
the cursor at 100 (scaled: 10000) it does not. -/
theorem pageBreak_characterization_witness :
    drawLine none "x" { done := [], cur := [], y := 5000 } =
      { done := [] ++ [{ texts := [], images := [] }],
        cur := [drawPageFurniture none,
                { s := "x", x := 5000, y := pageH - 8000, size := 10 }],
        y := pageH - 8000 - 1400 } ∧
    drawLine none "x" { done := [], cur := [], y := 10000 } =
      { done := [],
        cur := [] ++ [{ s := "x", x := 5000, y := 10000, size := 10 }],
        y := 10000 - 1400 } :=
  ⟨pageBreak_characterization.1 none "x" { done := [], cur := [], y := 5000 } (by decide),
   pageBreak_characterization.2.1 none "x" { done := [], cur := [], y := 10000 } (by decide)⟩

/-! ## Hasher contract -/

theorem flatMap_byteToHex_length (l : List ℕ) :
    (l.flatMap byteToHex).length = 2 * l.length := by
  induction l with
  | nil => rfl
  | cons b rest ih =>
    simp only [List.flatMap_cons, List.length_append, ih, byteToHex]
    simp
    omega

theorem sha512_length (msg : List ℕ) : (sha512 msg).length = 64 := by
  rw [sha512]
  simp [toBytesBE]

theorem hexDigit_mem (n : ℕ) : hexDigit (n % 16) ∈ hexDigits := by
  have h : n % 16 < 16 := Nat.mod_lt n (by decide)
  revert h
  generalize n % 16 = m
  intro h
  interval_cases m <;> decide

theorem flatMap_byteToHex_mem (l : List ℕ) :
    ∀ c ∈ l.flatMap byteToHex, c ∈ hexDigits := by
  induction l with
  | nil => intro c hc; simp at hc
  | cons b rest ih =>
    intro c hc
    simp only [List.flatMap_cons, List.mem_append] at hc
    rcases hc with hc | hc
    · rcases List.mem_cons.mp hc with h1 | h1
      · rw [h1]
        have := hexDigit_mem (b / 16)
        simpa using this
      · rcases List.mem_singleton.mp h1 with rfl
        exact hexDigit_mem b
    · exact ih c hc

set_option maxRecDepth 100000 in
/-- C7: for every byte sequence, including the empty one, the Hasher
returns (totally, with no failure path) the SHA-512 digest rendered as
exactly 128 lowercase hexadecimal characters; it is a pure function of the
input bytes, so equal inputs give equal digests; and on the empty input it
produces the published SHA-512 digest of the empty message. -/
theorem stringToHash_spec (data : List ℕ) :
    (stringToHash data).length = 128 ∧
    (∀ c ∈ (stringToHash data).data, c ∈ hexDigits) ∧
    (∀ other : List ℕ, data = other → stringToHash data = stringToHash other) ∧
    stringToHash [] =
      "cf83e1357eefb8bdf1542850d66d8007d620e4050b5715dc83f4a921d36ce9ce47d0d13c5d85f2b0ff8318d2877eec2f63b931bd47417a81a538327af927da3e" := by
  refine ⟨?_, ?_, ?_, by decide⟩
  · show ((sha512 data).flatMap byteToHex).length = 128
    rw [flatMap_byteToHex_length, sha512_length]
  · intro c hc
    exact flatMap_byteToHex_mem (sha512 data) c hc
  · intro other h
    rw [h]

/-- Witness for C7: the determinism clause applied at the empty input, and
the digest length at the empty input. -/
theorem stringToHash_spec_witness :
    stringToHash [] = stringToHash [] ∧ (stringToHash []).length = 128 :=
  ⟨(stringToHash_spec []).2.2.1 [] rfl, (stringToHash_spec []).1⟩

/-! ## Sealing pipeline: hash substitution and error propagation -/

/-- C2: whenever the sealing slice succeeds, the digest substituted for
the self-referential placeholder is exactly the Hasher digest of the byte
sequence the document builder returned. -/
theorem performSealingProcess_hash_substitution {ε : Type} (P : PdfPrims ε)
    (content : String) (input : SealInput) (r : SealResult)
    (h : performSealingProcess P content input = .ok r) :
    makeSealedPdf P input = .ok r.pdfBytes ∧
    r.hash = stringToHash r.pdfBytes ∧
    r.updatedContent =
      jsReplaceAll content sealPlaceholder (stringToHash r.pdfBytes) := by
  unfold performSealingProcess at h
  cases hm : makeSealedPdf P input with
  | error e =>
    rw [hm] at h
    exact absurd h (by simp [Bind.bind, Except.bind])
  | ok bytes =>
    rw [hm] at h
    have h2 := Except.ok.inj h
    rw [← h2]
    exact ⟨rfl, rfl, rfl⟩

/-- Width-free primitives in which every step succeeds and serialization
returns the empty byte sequence; used to witness the success path. -/
def okPrims : PdfPrims Unit :=
  { embedFont := .ok wMono,
    qrToDataURL := fun s => .ok s,
    embedPng := fun _ => .ok (),
    save := fun _ => .ok [] }

/-- A report content containing the self-referential hash placeholder. -/
def contentWithPlaceholder : String :=
  "Certified SHA-512 Hash: [Placeholder for SHA-512 hash of this report]"

set_option maxRecDepth 100000 in
/-- Witness for C2: with all-succeeding primitives whose serializer
returns the empty byte sequence, the substituted digest is the SHA-512
digest of that sequence. -/
theorem performSealingProcess_hash_substitution_witness :
    makeSealedPdf okPrims scenarioInput = .ok ([] : List ℕ) ∧
    "cf83e1357eefb8bdf1542850d66d8007d620e4050b5715dc83f4a921d36ce9ce47d0d13c5d85f2b0ff8318d2877eec2f63b931bd47417a81a538327af927da3e" =
      stringToHash [] ∧
    "Certified SHA-512 Hash: cf83e1357eefb8bdf1542850d66d8007d620e4050b5715dc83f4a921d36ce9ce47d0d13c5d85f2b0ff8318d2877eec2f63b931bd47417a81a538327af927da3e" =
      jsReplaceAll contentWithPlaceholder sealPlaceholder (stringToHash []) :=
  performSealingProcess_hash_substitution okPrims contentWithPlaceholder scenarioInput
    { pdfBytes := [],
      hash := "cf83e1357eefb8bdf1542850d66d8007d620e4050b5715dc83f4a921d36ce9ce47d0d13c5d85f2b0ff8318d2877eec2f63b931bd47417a81a538327af927da3e",
      updatedContent := "Certified SHA-512 Hash: cf83e1357eefb8bdf1542850d66d8007d620e4050b5715dc83f4a921d36ce9ce47d0d13c5d85f2b0ff8318d2877eec2f63b931bd47417a81a538327af927da3e" }
    (by rfl)

/-- C8: any failure of font embedding, QR data-URL generation, image
embedding, or serialization aborts the whole seal operation: the error
value propagates unchanged to the caller (there is no recovery or retry in
`makeSealedPdf`), and a byte sequence is returned only when every one of
those steps succeeded, in which case it is exactly the serializer output
for the laid-out document. -/
theorem makeSealedPdf_error_propagation {ε : Type} (P : PdfPrims ε)
    (input : SealInput) :
    (∀ e : ε, P.embedFont = .error e → makeSealedPdf P input = .error e) ∧
    (∀ (w : String → ℤ) (e : ε), P.embedFont = .ok w →
      P.qrToDataURL (payloadJson (initialQrPayload input)) = .error e →
      makeSealedPdf P input = .error e) ∧
    (∀ (w : String → ℤ) (u : String) (e : ε), P.embedFont = .ok w →
      P.qrToDataURL (payloadJson (initialQrPayload input)) = .ok u →
      P.embedPng u = .error e → makeSealedPdf P input = .error e) ∧
    (∀ (w : String → ℤ) (u : String) (e : ε), P.embedFont = .ok w →
      P.qrToDataURL (payloadJson (initialQrPayload input)) = .ok u →
      P.embedPng u = .ok () →
      P.save (buildSealedDoc w u input) = .error e →
      makeSealedPdf P input = .error e) ∧
    (∀ bytes : List ℕ, makeSealedPdf P input = .ok bytes →
      ∃ (w : String → ℤ) (u : String), P.embedFont = .ok w ∧
        P.qrToDataURL (payloadJson (initialQrPayload input)) = .ok u ∧
        P.embedPng u = .ok () ∧
        P.save (buildSealedDoc w u input) = .ok bytes) := by
  refine ⟨?_, ?_, ?_, ?_, ?_⟩
  · intro e h1
    unfold makeSealedPdf
    rw [h1]
    rfl
  · intro w e h1 h2
    unfold makeSealedPdf
    rw [h1]
    show P.qrToDataURL (payloadJson (initialQrPayload input)) >>= _ = _
    rw [h2]
    rfl
  · intro w u e h1 h2 h3
    unfold makeSealedPdf
    rw [h1]
    show P.qrToDataURL (payloadJson (initialQrPayload input)) >>= _ = _
    rw [h2]
    show P.embedPng u >>= _ = _
    rw [h3]
    rfl
  · intro w u e h1 h2 h3 h4
    unfold makeSealedPdf
    rw [h1]
    show P.qrToDataURL (payloadJson (initialQrPayload input)) >>= _ = _
    rw [h2]
    show P.embedPng u >>= _ = _
    rw [h3]
    show P.save (buildSealedDoc w u input) = _
    exact h4
  · intro bytes h
    unfold makeSealedPdf at h
    cases h1 : P.embedFont with
    | error e => rw [h1] at h; exact absurd h (by simp [Bind.bind, Except.bind])
    | ok w =>
      rw [h1] at h
      replace h : P.qrToDataURL (payloadJson (initialQrPayload input)) >>=
        (fun qrUrl => P.embedPng qrUrl >>=
          fun _ => P.save (buildSealedDoc w qrUrl input)) = .ok bytes := h
      cases h2 : P.qrToDataURL (payloadJson (initialQrPayload input)) with
      | error e => rw [h2] at h; exact absurd h (by simp [Bind.bind, Except.bind])
      | ok u =>
        rw [h2] at h
        replace h : P.embedPng u >>=
          (fun _ => P.save (buildSealedDoc w u input)) = .ok bytes := h
        cases h3 : P.embedPng u with
        | error e => rw [h3] at h; exact absurd h (by simp [Bind.bind, Except.bind])
        | ok u0 =>
          rw [h3] at h
          replace h : P.save (buildSealedDoc w u input) = .ok bytes := h
          exact ⟨w, u, rfl, rfl, by rw [h3], h⟩

/-- Primitives whose font embedding is rejected. -/
def fontFailPrims : PdfPrims Unit :=
  { embedFont := .error (),
    qrToDataURL := fun s => .ok s,
    embedPng := fun _ => .ok (),
    save := fun _ => .ok [] }

/-- Witness for C8: a font-embedding failure aborts the whole operation
with that error. -/
theorem makeSealedPdf_error_propagation_witness :
    makeSealedPdf fontFailPrims scenarioInput = .error () :=
  (makeSealedPdf_error_propagation fontFailPrims scenarioInput).1 () rfl
